import Mathlib

/-
  Shallow embedding of the lease subsystem of Xline
  (src/xline/src/storage/lease_store/mod.rs) and of the curp log entry
  (src/curp/src/log_entry.rs).

  HashMaps are embedded as association lists (first binding wins, insert
  replaces in place).  Instants are natural-number clock readings; the
  ambient clock `now` is passed explicitly to every operation that reads
  `Instant::now()`.
-/

namespace Xline

/-- A key is a byte string (Rust `Vec<u8>`), ordered lexicographically
exactly as Rust orders byte vectors. -/
abbrev Key := List Nat

/-- Lookup in an association list: the first binding for the key, mirroring
`HashMap::get`. -/
def alookup {α β : Type} [DecidableEq α] : List (α × β) → α → Option β
  | [], _ => none
  | p :: t, k => if p.1 = k then some p.2 else alookup t k

/-- Insert into an association list, replacing an existing binding in place,
mirroring `HashMap::insert`. -/
def ainsert {α β : Type} [DecidableEq α] (k : α) (v : β) : List (α × β) → List (α × β)
  | [] => [(k, v)]
  | p :: t => if p.1 = k then (k, v) :: t else p :: ainsert k v t

/-- Remove the binding for a key, mirroring `HashMap::remove` (on lists with
no duplicate keys, removing all bindings coincides with removing the one). -/
def aerase {α β : Type} [DecidableEq α] (k : α) (l : List (α × β)) : List (α × β) :=
  l.filter (fun p => decide (p.1 ≠ k))

/-- Apply a function to the value bound to a key, mirroring a mutation
through `HashMap::get_mut`. -/
def aupdate {α β : Type} [DecidableEq α] (k : α) (f : β → β) (l : List (α × β)) :
    List (α × β) :=
  l.map (fun p => if p.1 = k then (p.1, f p.2) else p)

/-- Apply a function to every value, mirroring iteration with `values_mut`. -/
def mapValues {α β : Type} (f : β → β) (l : List (α × β)) : List (α × β) :=
  l.map (fun p => (p.1, f p.2))

/-- Max lease ttl (`MAX_LEASE_TTL`, mod.rs line 38). -/
def MAX_LEASE_TTL : Int := 9000000000

/-- Min lease ttl (`MIN_LEASE_TTL`, mod.rs line 40). -/
def MIN_LEASE_TTL : Int := 1

/-- The `curp` ExecuteError (not under src/); only its `InvalidCommand(msg)`
variant is used by the lease store.  Each constructor stands for one of the
distinct message format strings the lease store produces; `render` gives the
exact source text, so the constructors are in bijection with the messages. -/
inductive ExecuteError : Type
  | leaseNotFound
  | ttlTooLarge (ttl : Int)
  | leaseAlreadyExists (id : Int)
  | leaseExpired
  | keepAliveNotLeader
deriving DecidableEq

/-- The exact `InvalidCommand` message text each `ExecuteError` constructor
stands for. -/
def ExecuteError.render : ExecuteError → String
  | .leaseNotFound => "lease not found"
  | .ttlTooLarge t => "lease ttl too large: " ++ toString t
  | .leaseAlreadyExists i => "lease already exists: " ++ toString i
  | .leaseExpired => "lease expired"
  | .keepAliveNotLeader => "lease keep alive must be called on leader"

/-- Whether an `Except` result is an error (Rust `Result::is_err`). -/
def isErrB {ε α : Type} : Except ε α → Bool
  | .error _ => true
  | .ok _ => false

/-- Modelled from the spec: `Lease` (lease.rs is not under src/), §3 of the
spec: id, ttl in whole seconds, `expiry : Option Instant` with `none`
meaning forever, and the set of attached keys (kept as a duplicate-free
list). -/
structure Lease where
  id : Int
  ttl : Nat
  expiry : Option Nat
  keysList : List Key
deriving DecidableEq

/-- Modelled from the spec: `Lease::new(id, ttl_secs)` yields
id, ttl, expiry = None, keys = ∅. -/
def Lease.new (id : Int) (ttl : Nat) : Lease :=
  { id := id, ttl := ttl, expiry := none, keysList := [] }

/-- Modelled from the spec: `refresh(extend)` sets
`expiry = now + ttl + extend` and returns the new expiry. -/
def Lease.refresh (l : Lease) (now extend : Nat) : Lease × Nat :=
  ({ l with expiry := some (now + l.ttl + extend) }, now + l.ttl + extend)

/-- Modelled from the spec: `forever()` sets `expiry = None`. -/
def Lease.forever (l : Lease) : Lease :=
  { l with expiry := none }

/-- Modelled from the spec: `expired()` is
`expiry.is_some() && expiry <= now`. -/
def Lease.expired (l : Lease) (now : Nat) : Bool :=
  match l.expiry with
  | none => false
  | some e => e ≤ now

/-- Modelled from the spec: `insert_key` adds a key to the lease's key set. -/
def Lease.insert_key (l : Lease) (k : Key) : Lease :=
  if k ∈ l.keysList then l else { l with keysList := k :: l.keysList }

/-- Modelled from the spec: `remove_key` removes a key from the key set. -/
def Lease.remove_key (l : Lease) (k : Key) : Lease :=
  { l with keysList := l.keysList.filter (fun x => decide (x ≠ k)) }

/-- Modelled from the spec: `keys()` returns a sorted snapshot (§4.1). -/
def Lease.keys (l : Lease) : List Key :=
  List.insertionSort (· ≤ ·) l.keysList

/-- Modelled from the spec: `LeaseQueue` (lease_queue.rs is not under src/),
a priority queue of (lease id, expiry) pairs ordered by expiry ascending
with ties broken by id ascending (§3), represented as a list sorted by that
order; `peek`/`pop` act on the head. -/
abbrev LeaseQueue := List (Int × Nat)

/-- The queue order: expiry ascending, ties by id ascending. -/
def LeaseQueue.entry_le (a b : Int × Nat) : Bool :=
  decide (a.2 < b.2) || (decide (a.2 = b.2) && decide (a.1 ≤ b.1))

/-- Insert an entry at its sorted position. -/
def LeaseQueue.sorted_insert (p : Int × Nat) : LeaseQueue → LeaseQueue
  | [] => [p]
  | q :: t => if LeaseQueue.entry_le p q then p :: q :: t else q :: LeaseQueue.sorted_insert p t

/-- Modelled from the spec: `insert(id, expiry)` with idempotent replace on
a duplicate id. -/
def LeaseQueue.insert (id : Int) (e : Nat) (q : LeaseQueue) : LeaseQueue :=
  LeaseQueue.sorted_insert (id, e) (q.filter (fun p => decide (p.1 ≠ id)))

/-- Modelled from the spec: `update(id, new_expiry)` re-keys an existing
entry; absent ids are left alone. -/
def LeaseQueue.update (id : Int) (e : Nat) (q : LeaseQueue) : LeaseQueue :=
  if q.any (fun p => decide (p.1 = id)) then LeaseQueue.insert id e q else q

/-- Modelled from the spec: `peek()` returns the earliest expiry. -/
def LeaseQueue.peek (q : LeaseQueue) : Option Nat :=
  q.head?.map Prod.snd

/-- Modelled from the spec: `pop()` removes and returns the id at the
earliest expiry. -/
def LeaseQueue.pop : LeaseQueue → Option Int × LeaseQueue
  | [] => (none, [])
  | p :: t => (some p.1, t)

/-- `LeaseCollection` (mod.rs lines 50-58): lease table, key → id reverse
index, and the expiry queue. -/
structure LeaseCollection where
  lease_map : List (Int × Lease)
  item_map : List (Key × Int)
  expired_queue : LeaseQueue
deriving DecidableEq

/-- `LeaseCollection::new` (mod.rs lines 61-68). -/
def LeaseCollection.new : LeaseCollection :=
  { lease_map := [], item_map := [], expired_queue := [] }

/-- `contains_lease` (mod.rs lines 126-129). -/
def LeaseCollection.contains_lease (c : LeaseCollection) (lease_id : Int) : Bool :=
  (alookup c.lease_map lease_id).isSome

/-- The loop of `find_expired_leases` (mod.rs lines 71-85): peek the queue;
while the earliest expiry is ≤ now, pop the id and push it onto the result
if it is still in `lease_map`; stop at the first non-expired entry.  On the
sorted-list queue representation peek/pop are head operations, so the loop
is structural recursion on the queue. -/
def find_expired_loop (now : Nat) (lm : List (Int × Lease)) :
    LeaseQueue → List Int × LeaseQueue
  | [] => ([], [])
  | p :: t =>
    if p.2 ≤ now then
      let r := find_expired_loop now lm t
      (if (alookup lm p.1).isSome then p.1 :: r.1 else r.1, r.2)
    else ([], p :: t)

/-- `find_expired_leases` (mod.rs lines 70-85), returning the expired ids
together with the mutated collection. -/
def LeaseCollection.find_expired_leases (c : LeaseCollection) (now : Nat) :
    List Int × LeaseCollection :=
  let r := find_expired_loop now c.lease_map c.expired_queue
  (r.1, { c with expired_queue := r.2 })

/-- `renew` (mod.rs lines 87-100): not-found and expired errors, otherwise
`refresh(0)`, queue update, and the lease's ttl in seconds. -/
def LeaseCollection.renew (c : LeaseCollection) (now : Nat) (lease_id : Int) :
    Except ExecuteError Int × LeaseCollection :=
  match alookup c.lease_map lease_id with
  | none => (.error .leaseNotFound, c)
  | some l =>
    if l.expired now then (.error .leaseExpired, c)
    else
      (.ok (l.ttl : Int),
       { c with
          lease_map := aupdate lease_id (fun x => (x.refresh now 0).1) c.lease_map,
          expired_queue := LeaseQueue.update lease_id (l.refresh now 0).2 c.expired_queue })

/-- `attach` (mod.rs lines 102-112): not-found error, otherwise insert the
key into the lease's set and bind it in `item_map`. -/
def LeaseCollection.attach (c : LeaseCollection) (lease_id : Int) (key : Key) :
    Except ExecuteError Unit × LeaseCollection :=
  match alookup c.lease_map lease_id with
  | none => (.error .leaseNotFound, c)
  | some _ =>
    (.ok (),
     { c with
        lease_map := aupdate lease_id (fun l => l.insert_key key) c.lease_map,
        item_map := ainsert key lease_id c.item_map })

/-- `detach` (mod.rs lines 114-124): not-found error, otherwise remove the
key from the lease's set and from `item_map`. -/
def LeaseCollection.detach (c : LeaseCollection) (lease_id : Int) (key : Key) :
    Except ExecuteError Unit × LeaseCollection :=
  match alookup c.lease_map lease_id with
  | none => (.error .leaseNotFound, c)
  | some _ =>
    (.ok (),
     { c with
        lease_map := aupdate lease_id (fun l => l.remove_key key) c.lease_map,
        item_map := aerase key c.item_map })

/-- `grant` (mod.rs lines 131-142): build a lease with ttl clamped below by
`MIN_LEASE_TTL`; on a leader refresh it and enqueue the expiry, otherwise
mark it forever; then insert it into `lease_map`. -/
def LeaseCollection.grant (c : LeaseCollection) (now : Nat) (lease_id ttl : Int)
    (is_leader : Bool) : LeaseCollection :=
  let lease := Lease.new lease_id (max ttl MIN_LEASE_TTL).toNat
  let st :=
    if is_leader then
      let r := lease.refresh now 0
      (r.1, LeaseQueue.insert lease_id r.2 c.expired_queue)
    else (lease.forever, c.expired_queue)
  { c with lease_map := ainsert lease_id st.1 c.lease_map, expired_queue := st.2 }

/-- `revoke` (mod.rs lines 144-147): remove the lease from `lease_map` and
return it; `item_map` and the queue are untouched. -/
def LeaseCollection.revoke (c : LeaseCollection) (lease_id : Int) :
    Option Lease × LeaseCollection :=
  (alookup c.lease_map lease_id, { c with lease_map := aerase lease_id c.lease_map })

/-- `demote` (mod.rs lines 149-153): set every lease to forever and clear
the queue. -/
def LeaseCollection.demote (c : LeaseCollection) : LeaseCollection :=
  { c with lease_map := mapValues Lease.forever c.lease_map, expired_queue := [] }

/-- `promote` (mod.rs lines 155-161): refresh every lease with the grace
extension and insert its new expiry into the queue. -/
def LeaseCollection.promote (c : LeaseCollection) (now extend : Nat) : LeaseCollection :=
  { c with
      lease_map := mapValues (fun l => (l.refresh now extend).1) c.lease_map,
      expired_queue :=
        c.lease_map.foldl
          (fun q p => LeaseQueue.insert p.2.id (p.2.refresh now extend).2 q)
          c.expired_queue }

/-- `LeaseGrantRequest` (rpc, wire level): id and requested ttl in seconds. -/
structure LeaseGrantRequest where
  id : Int
  ttl : Int
deriving DecidableEq

/-- `LeaseRevokeRequest` (rpc, wire level). -/
structure LeaseRevokeRequest where
  id : Int
deriving DecidableEq

/-- The lease-relevant variants of the rpc `RequestWrapper`;
`otherRequest` stands for every variant that is not a lease request. -/
inductive RequestWrapper : Type
  | leaseGrantRequest (req : LeaseGrantRequest)
  | leaseRevokeRequest (req : LeaseRevokeRequest)
  | otherRequest
deriving DecidableEq

/-- `LeaseGrantResponse`: header placeholder (the header generator is an
external collaborator), echoed id and ttl, and the error string. -/
structure LeaseGrantResponse where
  header : Option Unit
  id : Int
  ttl : Int
  error : String
deriving DecidableEq

/-- `LeaseRevokeResponse`. -/
structure LeaseRevokeResponse where
  header : Option Unit
deriving DecidableEq

/-- The lease-relevant variants of the rpc `ResponseWrapper`. -/
inductive ResponseWrapper : Type
  | leaseGrantResponse (r : LeaseGrantResponse)
  | leaseRevokeResponse (r : LeaseRevokeResponse)
deriving DecidableEq

/-- Modelled from the spec: `RequestCtx` (req_ctx.rs is not under src/), the
staged request together with the error flag of its speculative execution
(§3 C4). -/
structure RequestCtx where
  req : RequestWrapper
  met_err : Bool
deriving DecidableEq

/-- `LeaseStoreBackend` (mod.rs lines 165-177).  The leader flag stands for
`state.is_leader()` and `revision` for `header_gen.revision()`; both live in
external collaborators and are never written by the lease store. -/
structure LeaseStoreBackend where
  lease_collection : LeaseCollection
  sp_exec_pool : List (String × RequestCtx)
  is_leader : Bool
  revision : Int
deriving DecidableEq

/-- `handle_lease_grant_request` (mod.rs lines 379-408): reject id 0, then
over-large ttl, then an already existing id; otherwise echo id and ttl with
an empty error string. -/
def handle_lease_grant_request (b : LeaseStoreBackend) (req : LeaseGrantRequest) :
    Except ExecuteError LeaseGrantResponse :=
  if req.id = 0 then .error .leaseNotFound
  else if MAX_LEASE_TTL < req.ttl then .error (.ttlTooLarge req.ttl)
  else if b.lease_collection.contains_lease req.id then .error (.leaseAlreadyExists req.id)
  else .ok { header := some (), id := req.id, ttl := req.ttl, error := "" }

/-- `handle_lease_revoke_request` (mod.rs lines 410-422). -/
def handle_lease_revoke_request (b : LeaseStoreBackend) (req : LeaseRevokeRequest) :
    Except ExecuteError LeaseRevokeResponse :=
  if b.lease_collection.contains_lease req.id then .ok { header := some () }
  else .error .leaseNotFound

/-- `handle_lease_requests` (mod.rs lines 354-377): dispatch on the request
type, stage the request context in the speculative pool, and return the
result; any non-lease request hits `unreachable!`, modelled as `none`. -/
def handle_lease_requests (b : LeaseStoreBackend) (id : String)
    (wrapper : RequestWrapper) :
    Option (Except ExecuteError ResponseWrapper × LeaseStoreBackend) :=
  match wrapper with
  | .leaseGrantRequest req =>
    let res := (handle_lease_grant_request b req).map ResponseWrapper.leaseGrantResponse
    some (res,
      { b with
          sp_exec_pool := ainsert id { req := wrapper, met_err := isErrB res } b.sp_exec_pool })
  | .leaseRevokeRequest req =>
    let res := (handle_lease_revoke_request b req).map ResponseWrapper.leaseRevokeResponse
    some (res,
      { b with
          sp_exec_pool := ainsert id { req := wrapper, met_err := isErrB res } b.sp_exec_pool })
  | .otherRequest => none

/-- `sync_lease_grant_request` (mod.rs lines 449-459): re-check the three
grant preconditions and silently no-op when any fails, else grant. -/
def sync_lease_grant_request (b : LeaseStoreBackend) (now : Nat)
    (req : LeaseGrantRequest) : LeaseCollection :=
  if req.id = 0 ∨ MAX_LEASE_TTL < req.ttl ∨
      (alookup b.lease_collection.lease_map req.id).isSome then
    b.lease_collection
  else b.lease_collection.grant now req.id req.ttl b.is_leader

/-- `sync_lease_revoke_request` (mod.rs lines 461-477): revoke; if the lease
was absent or its key set is empty, emit nothing; otherwise emit one
`DeleteMessage` with the keys sorted.  The emitted message is returned as
`some keys`. -/
def sync_lease_revoke_request (c : LeaseCollection) (req : LeaseRevokeRequest) :
    LeaseCollection × Option (List Key) :=
  let r := c.revoke req.id
  match r.1 with
  | none => (r.2, none)
  | some l =>
    let keys := l.keys
    if keys.isEmpty then (r.2, none)
    else (r.2, some (List.insertionSort (· ≤ ·) keys))

/-- `sync_request` (mod.rs lines 424-446): take the staged context (panic,
modelled as `none`, when absent); when `met_err` return the current revision
unchanged; otherwise dispatch to the sync handler and return the revision.
The second component is the emitted `DeleteMessage`, when any. -/
def sync_request (b : LeaseStoreBackend) (now : Nat) (id : String) :
    Option (LeaseStoreBackend × Option (List Key) × Int) :=
  match alookup b.sp_exec_pool id with
  | none => none
  | some ctx =>
    let b1 := { b with sp_exec_pool := aerase id b.sp_exec_pool }
    if ctx.met_err then some (b1, none, b1.revision)
    else
      match ctx.req with
      | .leaseGrantRequest req =>
        some ({ b1 with lease_collection := sync_lease_grant_request b1 now req },
          none, b1.revision)
      | .leaseRevokeRequest req =>
        let r := sync_lease_revoke_request b1.lease_collection req
        some ({ b1 with lease_collection := r.1 }, r.2, b1.revision)
      | .otherRequest => none

/-- `keep_alive` (mod.rs lines 278-286): leader-only, else the not-leader
error without touching the collection; on a leader delegate to `renew`. -/
def keep_alive (b : LeaseStoreBackend) (now : Nat) (lease_id : Int) :
    Except ExecuteError Int × LeaseStoreBackend :=
  if !b.is_leader then (.error .keepAliveNotLeader, b)
  else
    let r := b.lease_collection.renew now lease_id
    (r.1, { b with lease_collection := r.2 })

/-- The item-map invariant of claim C1 (spec §8): every key bound in
`item_map` points to a lease that exists in `lease_map` and lists the key. -/
def ItemMapInv (c : LeaseCollection) : Prop :=
  ∀ k id, alookup c.item_map k = some id →
    ∃ l, alookup c.lease_map id = some l ∧ k ∈ l.keysList

/-- The representation invariant of the queue: entries are ordered by expiry
ascending (maintained by `LeaseQueue.insert`). -/
def QSorted (q : LeaseQueue) : Prop :=
  List.Pairwise (fun a b : Int × Nat => a.2 ≤ b.2) q

/-- A concrete collection: lease 1 granted on a follower at time 0 with
ttl 5, and key "k" (byte 107) attached to it. -/
def attachedState : LeaseCollection :=
  ((LeaseCollection.new.grant 0 1 5 false).attach 1 [107]).2

/-- `attachedState` after revoking lease 1: `lease_map` no longer contains
lease 1 but `item_map` still binds the key to it. -/
def revokedState : LeaseCollection :=
  (attachedState.revoke 1).2

end Xline

namespace Curp

/-- `ConfChangeEntry` is declared in the curp rpc module (not under src/);
only its propose id accessor is used by `LogEntry::id`. -/
structure ConfChangeEntry where
  propose_id : String
deriving DecidableEq

/-- `EntryData` (log_entry.rs lines 23-31). -/
inductive EntryData (C : Type) : Type
  | command (cmd : C)
  | confChange (e : ConfChangeEntry)
  | shutdown

/-- `LogEntry` (log_entry.rs lines 12-20). -/
structure LogEntry (C : Type) where
  term : Nat
  index : Nat
  entry_data : EntryData C

/-- `LogEntry::id` (log_entry.rs lines 58-70): the propose id of a command
(through the `Command` trait accessor `cmd_id`) or of a conf change; a
`Shutdown` entry hits `unreachable!`, modelled as `none`. -/
def LogEntry.id {C : Type} (cmd_id : C → String) (e : LogEntry C) : Option String :=
  match e.entry_data with
  | .command c => some (cmd_id c)
  | .confChange cc => some cc.propose_id
  | .shutdown => none

end Curp

namespace Xline

theorem alookup_ainsert_self {α β : Type} [DecidableEq α] (k : α) (v : β)
    (l : List (α × β)) : alookup (ainsert k v l) k = some v := by
  induction l with
  | nil => simp [ainsert, alookup]
  | cons p t ih =>
    rcases eq_or_ne p.1 k with hp | hp
    · simp [ainsert, alookup, hp]
    · simp [ainsert, alookup, hp, ih]

theorem alookup_ainsert_ne {α β : Type} [DecidableEq α] {k k' : α} (v : β)
    (l : List (α × β)) (h : k' ≠ k) : alookup (ainsert k v l) k' = alookup l k' := by
  induction l with
  | nil => simp [ainsert, alookup, Ne.symm h]
  | cons p t ih =>
    rcases eq_or_ne p.1 k with hp | hp
    · have hpk' : p.1 ≠ k' := by rw [hp]; exact Ne.symm h
      simp [ainsert, alookup, hp, hpk', Ne.symm h]
    · simp [ainsert, alookup, hp, ih]

theorem alookup_aerase_self {α β : Type} [DecidableEq α] (k : α)
    (l : List (α × β)) : alookup (aerase k l) k = none := by
  induction l with
  | nil => simp [aerase, alookup]
  | cons p t ih =>
    rcases eq_or_ne p.1 k with hp | hp
    · simpa [aerase, alookup, hp, List.filter_cons] using ih
    · simpa [aerase, alookup, hp, List.filter_cons] using ih

theorem alookup_aerase_ne {α β : Type} [DecidableEq α] {k k' : α}
    (l : List (α × β)) (h : k' ≠ k) : alookup (aerase k l) k' = alookup l k' := by
  induction l with
  | nil => simp [aerase, alookup]
  | cons p t ih =>
    rcases eq_or_ne p.1 k with hp | hp
    · simpa [aerase, alookup, hp, Ne.symm h, List.filter_cons] using ih
    · rcases eq_or_ne p.1 k' with hk | hk
      · simp [aerase, alookup, hp, hk, h, List.filter_cons]
      · simpa [aerase, alookup, hp, hk, h, List.filter_cons] using ih

theorem alookup_aupdate_self {α β : Type} [DecidableEq α] (k : α) (f : β → β)
    (l : List (α × β)) : alookup (aupdate k f l) k = (alookup l k).map f := by
  induction l with
  | nil => simp [aupdate, alookup]
  | cons p t ih =>
    rcases eq_or_ne p.1 k with hp | hp
    · simp [aupdate, alookup, hp]
    · simpa [aupdate, alookup, hp] using ih

theorem alookup_aupdate_ne {α β : Type} [DecidableEq α] {k k' : α} (f : β → β)
    (l : List (α × β)) (h : k' ≠ k) : alookup (aupdate k f l) k' = alookup l k' := by
  induction l with
  | nil => simp [aupdate, alookup]
  | cons p t ih =>
    rcases eq_or_ne p.1 k with hp | hp
    · simpa [aupdate, alookup, hp, Ne.symm h] using ih
    · rcases eq_or_ne p.1 k' with hk | hk
      · simp [aupdate, alookup, hp, hk, h]
      · simpa [aupdate, alookup, hp, hk] using ih

theorem alookup_mapValues {α β : Type} [DecidableEq α] (f : β → β)
    (l : List (α × β)) (k : α) :
    alookup (mapValues f l) k = (alookup l k).map f := by
  induction l with
  | nil => simp [mapValues, alookup]
  | cons p t ih =>
    rcases eq_or_ne p.1 k with hp | hp
    · simp [mapValues, alookup, hp]
    · simpa [mapValues, alookup, hp] using ih

theorem mem_insert_key_self (l : Lease) (k : Key) :
    k ∈ (l.insert_key k).keysList := by
  unfold Lease.insert_key
  by_cases h : k ∈ l.keysList
  · simp [h]
  · simp [h]

theorem mem_insert_key_of_mem (l : Lease) (k : Key) {k' : Key}
    (h : k' ∈ l.keysList) : k' ∈ (l.insert_key k).keysList := by
  unfold Lease.insert_key
  by_cases hm : k ∈ l.keysList
  · simpa [hm]
  · simp [hm, h]

theorem mem_remove_key {l : Lease} {k k' : Key} (h : k' ∈ l.keysList)
    (hne : k' ≠ k) : k' ∈ (l.remove_key k).keysList := by
  unfold Lease.remove_key
  simp [List.mem_filter, h, hne]


/-- Claim C7: after `demote` — which sets every lease's expiry to `none` and
clears the expiry queue — `find_expired_leases` returns the empty list for
every wall-clock time and every prior collection state. -/
theorem demote_find_expired_leases_empty (c : LeaseCollection) (now : Nat) :
    (c.demote.find_expired_leases now).1 = []
    ∧ c.demote.expired_queue = []
    ∧ c.demote.lease_map.Forall (fun p => p.2.expiry = none) := by
  refine ⟨rfl, rfl, ?_⟩
  rw [List.forall_iff_forall_mem]
  intro x hx
  simp only [LeaseCollection.demote, mapValues, List.mem_map] at hx
  obtain ⟨a, _, rfl⟩ := hx
  rfl

/-- Claim C9: `handle_lease_requests` panics (`unreachable!`, modelled as
`none`) on every request that is neither a `LeaseGrantRequest` nor a
`LeaseRevokeRequest`, and returns a staged result on the two lease request
types. -/
theorem handle_lease_requests_non_lease_panics (b : LeaseStoreBackend) (id : String) :
    handle_lease_requests b id RequestWrapper.otherRequest = none
    ∧ (∀ req : LeaseGrantRequest,
        (handle_lease_requests b id (RequestWrapper.leaseGrantRequest req)).isSome = true)
    ∧ (∀ req : LeaseRevokeRequest,
        (handle_lease_requests b id (RequestWrapper.leaseRevokeRequest req)).isSome = true) :=
  ⟨rfl, fun _ => rfl, fun _ => rfl⟩

end Xline

namespace Curp

/-- Claim C10: `LogEntry::id` panics (`unreachable!`, modelled as `none`)
exactly on `Shutdown` entries, and returns the propose id for `Command` and
`ConfChange` entries. -/
theorem log_entry_id_shutdown_panics {C : Type} (cmd_id : C → String) (t i : Nat)
    (c : C) (cc : ConfChangeEntry) :
    LogEntry.id cmd_id { term := t, index := i, entry_data := EntryData.shutdown } = none
    ∧ LogEntry.id cmd_id { term := t, index := i, entry_data := EntryData.command c }
        = some (cmd_id c)
    ∧ LogEntry.id cmd_id { term := t, index := i, entry_data := EntryData.confChange cc }
        = some cc.propose_id :=
  ⟨rfl, rfl, rfl⟩

end Curp

namespace Xline

/-- Claim C2: `handle_lease_grant_request` rejects id 0 with the not-found
error, then a ttl above `MAX_LEASE_TTL` with the ttl-too-large error, then
an id already in the collection with the already-exists error, and otherwise
(the boundary ttl = `MAX_LEASE_TTL` included) returns a response echoing the
request's id and ttl with an empty error string. -/
theorem handle_lease_grant_request_cases (b : LeaseStoreBackend) (req : LeaseGrantRequest) :
    (handle_lease_grant_request b req = .error .leaseNotFound ↔ req.id = 0)
    ∧ (handle_lease_grant_request b req = .error (.ttlTooLarge req.ttl) ↔
        req.id ≠ 0 ∧ MAX_LEASE_TTL < req.ttl)
    ∧ (handle_lease_grant_request b req = .error (.leaseAlreadyExists req.id) ↔
        req.id ≠ 0 ∧ req.ttl ≤ MAX_LEASE_TTL
          ∧ b.lease_collection.contains_lease req.id = true)
    ∧ (req.id ≠ 0 → req.ttl ≤ MAX_LEASE_TTL →
        b.lease_collection.contains_lease req.id = false →
        handle_lease_grant_request b req =
          .ok { header := some (), id := req.id, ttl := req.ttl, error := "" }) := by
  by_cases h1 : req.id = 0
  · simp [handle_lease_grant_request, h1]
  · by_cases h2 : MAX_LEASE_TTL < req.ttl
    · simp [handle_lease_grant_request, h1, h2, not_le.mpr h2]
    · by_cases h3 : b.lease_collection.contains_lease req.id = true
      · simp [handle_lease_grant_request, h1, h2, h3, not_lt.mp h2]
      · simp [handle_lease_grant_request, h1, h2, h3, not_lt.mp h2]

/-- Claim C2 witness: a grant of id 1 with the boundary ttl
`MAX_LEASE_TTL` on an empty store succeeds, echoing id and ttl. -/
theorem handle_lease_grant_request_cases_witness :
    handle_lease_grant_request
      { lease_collection := LeaseCollection.new, sp_exec_pool := [],
        is_leader := true, revision := 0 }
      { id := 1, ttl := 9000000000 } =
      .ok { header := some (), id := 1, ttl := 9000000000, error := "" } :=
  (handle_lease_grant_request_cases
      { lease_collection := LeaseCollection.new, sp_exec_pool := [],
        is_leader := true, revision := 0 }
      { id := 1, ttl := 9000000000 }).2.2.2
    (by decide) (by decide) (by decide)

/-- Claim C4: when the staged context carries `met_err = true`, `sync_request`
removes the context from the speculative pool, leaves the lease collection
(and the leader flag) untouched, emits no `DeleteMessage`, and returns the
current revision unchanged. -/
theorem sync_request_met_err (b : LeaseStoreBackend) (now : Nat) (id : String)
    (ctx : RequestCtx) (h1 : alookup b.sp_exec_pool id = some ctx)
    (h2 : ctx.met_err = true) :
    sync_request b now id =
      some ({ b with sp_exec_pool := aerase id b.sp_exec_pool }, none, b.revision) := by
  unfold sync_request
  rw [h1]
  simp [h2]

/-- Claim C4 witness: a staged erroneous grant is dropped by `sync_request`
with no state change and the revision (7) returned unchanged. -/
theorem sync_request_met_err_witness :
    sync_request
      { lease_collection := LeaseCollection.new,
        sp_exec_pool :=
          [("p1", { req := RequestWrapper.leaseGrantRequest { id := 0, ttl := 5 },
                    met_err := true })],
        is_leader := true, revision := 7 } 3 "p1" =
      some ({ lease_collection := LeaseCollection.new, sp_exec_pool := [],
              is_leader := true, revision := 7 }, none, 7) := by
  have h := sync_request_met_err
    { lease_collection := LeaseCollection.new,
      sp_exec_pool :=
        [("p1", { req := RequestWrapper.leaseGrantRequest { id := 0, ttl := 5 },
                  met_err := true })],
      is_leader := true, revision := 7 } 3 "p1"
    { req := RequestWrapper.leaseGrantRequest { id := 0, ttl := 5 }, met_err := true }
    rfl rfl
  exact h.trans (by decide)

theorem grant_stored_ttl (c : LeaseCollection) (now : Nat) (idv t : Int) (lead : Bool)
    {l : Lease} (hl : alookup (c.grant now idv t lead).lease_map idv = some l) :
    l.ttl = (max t MIN_LEASE_TTL).toNat := by
  simp only [LeaseCollection.grant] at hl
  rw [alookup_ainsert_self] at hl
  injection hl with h
  subst h
  cases lead <;> rfl

/-- Claim C8: the ttl a `grant` stores is clamped below by `MIN_LEASE_TTL`
(it equals `max t MIN_LEASE_TTL`), and along the program's only path to
`grant` — `sync_lease_grant_request`, which re-checks `ttl ≤ MAX_LEASE_TTL`
— the stored ttl also never exceeds `MAX_LEASE_TTL`. -/
theorem lease_ttl_clamped (c : LeaseCollection) (now : Nat) (idv t : Int) (lead : Bool)
    (b : LeaseStoreBackend) (req : LeaseGrantRequest) :
    (∀ l, alookup (c.grant now idv t lead).lease_map idv = some l →
        (l.ttl : Int) = max t MIN_LEASE_TTL ∧ MIN_LEASE_TTL ≤ (l.ttl : Int)
          ∧ (t ≤ MAX_LEASE_TTL → (l.ttl : Int) ≤ MAX_LEASE_TTL))
    ∧ (∀ l, alookup (sync_lease_grant_request b now req).lease_map req.id = some l →
        alookup b.lease_collection.lease_map req.id = none →
        (l.ttl : Int) = max req.ttl MIN_LEASE_TTL ∧ MIN_LEASE_TTL ≤ (l.ttl : Int)
          ∧ (l.ttl : Int) ≤ MAX_LEASE_TTL) := by
  have hnn : ∀ s : Int, (0 : Int) ≤ max s MIN_LEASE_TTL := fun s =>
    le_trans (by norm_num [MIN_LEASE_TTL]) (le_max_right s MIN_LEASE_TTL)
  constructor
  · intro l hl
    have ht := grant_stored_ttl c now idv t lead hl
    have hcast : (l.ttl : Int) = max t MIN_LEASE_TTL := by
      rw [ht]; exact Int.toNat_of_nonneg (hnn t)
    refine ⟨hcast, ?_, ?_⟩
    · rw [hcast]; exact le_max_right t MIN_LEASE_TTL
    · intro hle; rw [hcast]
      exact max_le hle (by norm_num [MIN_LEASE_TTL, MAX_LEASE_TTL])
  · intro l hl hnone
    unfold sync_lease_grant_request at hl
    split at hl
    · rw [hnone] at hl
      exact Option.noConfusion hl
    · rename_i hg
      push_neg at hg
      obtain ⟨-, hle, -⟩ := hg
      have ht := grant_stored_ttl b.lease_collection now req.id req.ttl b.is_leader hl
      have hcast : (l.ttl : Int) = max req.ttl MIN_LEASE_TTL := by
        rw [ht]; exact Int.toNat_of_nonneg (hnn req.ttl)
      refine ⟨hcast, ?_, ?_⟩
      · rw [hcast]; exact le_max_right req.ttl MIN_LEASE_TTL
      · rw [hcast]
        exact max_le hle (by norm_num [MIN_LEASE_TTL, MAX_LEASE_TTL])

/-- Claim C8 witness: granting with requested ttl -5 at time 0 stores a
lease whose ttl is max(-5, MIN_LEASE_TTL) = 1 second. -/
theorem lease_ttl_clamped_witness :
    (((⟨2, 1, some 1, []⟩ : Lease).ttl : Int)) = max (-5) MIN_LEASE_TTL :=
  ((lease_ttl_clamped LeaseCollection.new 0 2 (-5) true
      { lease_collection := LeaseCollection.new, sp_exec_pool := [],
        is_leader := true, revision := 0 }
      { id := 1, ttl := 1 }).1
    ⟨2, 1, some 1, []⟩ (by decide)).1

/-- Claim C3: syncing a `LeaseRevokeRequest` emits no `DeleteMessage` when
the lease is absent (hence a second application of the same request emits
nothing) or when its key set is empty, and otherwise emits exactly one
message holding the lease's keys in ascending sorted order. -/
theorem sync_lease_revoke_request_messages (c : LeaseCollection) (req : LeaseRevokeRequest) :
    (alookup c.lease_map req.id = none → (sync_lease_revoke_request c req).2 = none)
    ∧ (∀ l, alookup c.lease_map req.id = some l → l.keys = [] →
        (sync_lease_revoke_request c req).2 = none)
    ∧ (∀ l, alookup c.lease_map req.id = some l → l.keys ≠ [] →
        (sync_lease_revoke_request c req).2 = some (List.insertionSort (· ≤ ·) l.keys)
          ∧ List.Sorted (· ≤ ·) (List.insertionSort (· ≤ ·) l.keys)
          ∧ (List.insertionSort (· ≤ ·) l.keys).Perm l.keys)
    ∧ (sync_lease_revoke_request (sync_lease_revoke_request c req).1 req).2 = none := by
  have first : ∀ c' : LeaseCollection, alookup c'.lease_map req.id = none →
      (sync_lease_revoke_request c' req).2 = none := by
    intro c' h
    simp [sync_lease_revoke_request, LeaseCollection.revoke, h]
  refine ⟨first c, ?_, ?_, ?_⟩
  · intro l h hk
    have hke : l.keys.isEmpty = true := by rw [hk]; rfl
    simp [sync_lease_revoke_request, LeaseCollection.revoke, h, hke]
  · intro l h hk
    have hke : l.keys.isEmpty = false := by
      cases hkk : l.keys with
      | nil => exact absurd hkk hk
      | cons a s => rfl
    refine ⟨?_, List.sorted_insertionSort (· ≤ ·) l.keys,
      List.perm_insertionSort (· ≤ ·) l.keys⟩
    simp [sync_lease_revoke_request, LeaseCollection.revoke, h, hke]
  · refine first _ ?_
    have h2 : (sync_lease_revoke_request c req).1.lease_map = aerase req.id c.lease_map := by
      simp only [sync_lease_revoke_request, LeaseCollection.revoke]
      cases h : alookup c.lease_map req.id with
      | none => rfl
      | some l => by_cases hke : l.keys.isEmpty = true <;> simp [hke]
    rw [h2]
    exact alookup_aerase_self req.id c.lease_map

/-- Claim C3 witness: revoking lease 1, which holds keys [2] and [1] in
attach order, emits the keys sorted ascending, and a second application of
the same revoke emits nothing. -/
theorem sync_lease_revoke_request_messages_witness :
    (sync_lease_revoke_request
      { lease_map := [(1, { id := 1, ttl := 5, expiry := none, keysList := [[2], [1]] })],
        item_map := [], expired_queue := [] }
      { id := 1 }).2 = some [[1], [2]] := by
  have h := (sync_lease_revoke_request_messages
      { lease_map := [(1, { id := 1, ttl := 5, expiry := none, keysList := [[2], [1]] })],
        item_map := [], expired_queue := [] }
      { id := 1 }).2.2.1
    { id := 1, ttl := 5, expiry := none, keysList := [[2], [1]] }
    (by decide) (by decide)
  exact h.1.trans (by decide)

/-- Claim C6: `keep_alive` on a non-leader returns the leader-only error
without touching the state; on a leader it delegates to `renew`, which
rejects an absent id with the not-found error and an expired lease with the
expired error, and otherwise refreshes the lease with zero extension
(expiry becomes now + ttl), updates the queue, and returns the lease's ttl
in seconds. -/
theorem keep_alive_cases (b : LeaseStoreBackend) (now : Nat) (idv : Int) :
    (b.is_leader = false → keep_alive b now idv = (.error .keepAliveNotLeader, b))
    ∧ (b.is_leader = true → alookup b.lease_collection.lease_map idv = none →
        keep_alive b now idv = (.error .leaseNotFound, b))
    ∧ (∀ l, b.is_leader = true → alookup b.lease_collection.lease_map idv = some l →
        l.expired now = true → keep_alive b now idv = (.error .leaseExpired, b))
    ∧ (∀ l, b.is_leader = true → alookup b.lease_collection.lease_map idv = some l →
        l.expired now = false →
        (keep_alive b now idv).1 = .ok (l.ttl : Int)
        ∧ alookup (keep_alive b now idv).2.lease_collection.lease_map idv =
            some { l with expiry := some (now + l.ttl) }
        ∧ (keep_alive b now idv).2.lease_collection.expired_queue =
            LeaseQueue.update idv (now + l.ttl) b.lease_collection.expired_queue
        ∧ (keep_alive b now idv).2.lease_collection.item_map =
            b.lease_collection.item_map) := by
  refine ⟨?_, ?_, ?_, ?_⟩
  · intro h
    simp [keep_alive, h]
  · intro hld h
    simp [keep_alive, hld, LeaseCollection.renew, h]
    rw [← hld]
  · intro l hld h hexp
    simp [keep_alive, hld, LeaseCollection.renew, h, hexp]
    rw [← hld]
  · intro l hld h hexp
    refine ⟨?_, ?_, ?_, ?_⟩
    · simp [keep_alive, hld, LeaseCollection.renew, h, hexp]
    · simp only [keep_alive, hld, Bool.not_true, LeaseCollection.renew, h, hexp,
        Bool.false_eq_true, if_false]
      rw [alookup_aupdate_self, h]
      simp [Lease.refresh]
    · simp [keep_alive, hld, LeaseCollection.renew, h, hexp, Lease.refresh]
    · simp [keep_alive, hld, LeaseCollection.renew, h, hexp]

/-- Claim C6 witness: keeping alive lease 1 (ttl 10 s, expiry 100) at time 5
on a leader returns its ttl of 10 seconds. -/
theorem keep_alive_cases_witness :
    (keep_alive
      { lease_collection :=
          { lease_map := [(1, { id := 1, ttl := 10, expiry := some 100, keysList := [] })],
            item_map := [], expired_queue := [(1, 100)] },
        sp_exec_pool := [], is_leader := true, revision := 0 } 5 1).1 = .ok 10 :=
  ((keep_alive_cases
      { lease_collection :=
          { lease_map := [(1, { id := 1, ttl := 10, expiry := some 100, keysList := [] })],
            item_map := [], expired_queue := [(1, 100)] },
        sp_exec_pool := [], is_leader := true, revision := 0 } 5 1).2.2.2
    { id := 1, ttl := 10, expiry := some 100, keysList := [] }
    rfl (by decide) (by decide)).1

theorem find_expired_loop_eq (now : Nat) (lm : List (Int × Lease)) (q : LeaseQueue)
    (hs : List.Pairwise (fun a b : Int × Nat => a.2 ≤ b.2) q) :
    find_expired_loop now lm q =
      ((q.filter (fun p => decide (p.2 ≤ now) && (alookup lm p.1).isSome)).map Prod.fst,
        q.dropWhile (fun p => decide (p.2 ≤ now))) := by
  induction q with
  | nil => rfl
  | cons p t ih =>
    rcases List.pairwise_cons.mp hs with ⟨hp, ht⟩
    by_cases hle : p.2 ≤ now
    · by_cases hin : (alookup lm p.1).isSome = true
      · simp [find_expired_loop, hle, hin, List.filter_cons, List.dropWhile_cons, ih ht]
      · simp [find_expired_loop, hle, hin, List.filter_cons, List.dropWhile_cons, ih ht]
    · have hall : List.filter (fun p => decide (p.2 ≤ now) && (alookup lm p.1).isSome) t = [] := by
        rw [List.filter_eq_nil_iff]
        intro a ha
        have hna : ¬ a.2 ≤ now := fun hc => hle (le_trans (hp a ha) hc)
        simp [hna]
      simp [find_expired_loop, hle, List.filter_cons, List.dropWhile_cons, hall]

/-- Claim C5: on a collection whose queue satisfies its sortedness
representation invariant, `find_expired_leases` returns exactly the queue's
entries whose expiry is ≤ now and whose id is still present in `lease_map`
(stale entries left by revoke are skipped), in queue order, and leaves in
the queue exactly the suffix starting at the first non-expired entry. -/
theorem find_expired_leases_returns (c : LeaseCollection) (now : Nat)
    (hs : QSorted c.expired_queue) :
    (c.find_expired_leases now).1 =
      (c.expired_queue.filter
        (fun p => decide (p.2 ≤ now) && (alookup c.lease_map p.1).isSome)).map Prod.fst
    ∧ (c.find_expired_leases now).2.expired_queue =
      c.expired_queue.dropWhile (fun p => decide (p.2 ≤ now)) := by
  have h := find_expired_loop_eq now c.lease_map c.expired_queue hs
  constructor
  · show (find_expired_loop now c.lease_map c.expired_queue).1 = _
    rw [h]
  · show (find_expired_loop now c.lease_map c.expired_queue).2 = _
    rw [h]

/-- Claim C5 witness: at time 20, with queue entries (id 2, expiry 5),
(id 7, expiry 10), (id 3, expiry 50) and only ids 2 and 3 live, the scan
returns [2] — the stale id 7 is skipped and the non-expired id 3 stops the
scan, leaving it queued. -/
theorem find_expired_leases_returns_witness :
    (LeaseCollection.find_expired_leases
      { lease_map := [(2, { id := 2, ttl := 1, expiry := some 5, keysList := [] }),
                      (3, { id := 3, ttl := 1, expiry := some 50, keysList := [] })],
        item_map := [],
        expired_queue := [(2, 5), (7, 10), (3, 50)] } 20).1 = [2]
    ∧ (LeaseCollection.find_expired_leases
      { lease_map := [(2, { id := 2, ttl := 1, expiry := some 5, keysList := [] }),
                      (3, { id := 3, ttl := 1, expiry := some 50, keysList := [] })],
        item_map := [],
        expired_queue := [(2, 5), (7, 10), (3, 50)] } 20).2.expired_queue = [(3, 50)] := by
  have h := find_expired_leases_returns
      { lease_map := [(2, { id := 2, ttl := 1, expiry := some 5, keysList := [] }),
                      (3, { id := 3, ttl := 1, expiry := some 50, keysList := [] })],
        item_map := [],
        expired_queue := [(2, 5), (7, 10), (3, 50)] } 20
      (by constructor
          · intro b hb
            simp at hb
            rcases hb with hb | hb <;> simp [hb]
          · constructor
            · intro b hb
              simp at hb
              simp [hb]
            · simp)
  exact ⟨h.1.trans (by decide), h.2.trans (by decide)⟩

theorem itemMapInv_grant (c : LeaseCollection) (hc : ItemMapInv c) (now : Nat)
    (idv t : Int) (lead : Bool) (hfresh : alookup c.lease_map idv = none) :
    ItemMapInv (c.grant now idv t lead) := by
  intro k id hitem
  have hitem' : alookup c.item_map k = some id := hitem
  obtain ⟨l, hl, hk⟩ := hc k id hitem'
  have hne : id ≠ idv := by
    intro he
    rw [he, hfresh] at hl
    exact Option.noConfusion hl
  refine ⟨l, ?_, hk⟩
  show alookup (ainsert idv _ c.lease_map) id = some l
  rw [alookup_ainsert_ne _ _ hne]
  exact hl

theorem itemMapInv_renew (c : LeaseCollection) (hc : ItemMapInv c) (now : Nat)
    (idv : Int) : ItemMapInv (c.renew now idv).2 := by
  unfold LeaseCollection.renew
  split
  · exact hc
  · split
    · exact hc
    · intro k id hitem
      obtain ⟨l0, hl0, hk0⟩ := hc k id hitem
      rcases eq_or_ne id idv with he | hne
      · subst he
        refine ⟨(l0.refresh now 0).1, ?_, hk0⟩
        exact (alookup_aupdate_self id (fun x => (x.refresh now 0).1) c.lease_map).trans
          (by rw [hl0])
      · refine ⟨l0, ?_, hk0⟩
        exact (alookup_aupdate_ne (fun x => (x.refresh now 0).1) c.lease_map hne).trans hl0

theorem itemMapInv_attach (c : LeaseCollection) (hc : ItemMapInv c) (idv : Int)
    (k : Key) : ItemMapInv (c.attach idv k).2 := by
  unfold LeaseCollection.attach
  cases h : alookup c.lease_map idv with
  | none => exact hc
  | some l =>
    intro k' id' hitem
    rcases eq_or_ne k' k with he | hne
    · subst he
      rw [alookup_ainsert_self] at hitem
      injection hitem with hid
      subst hid
      refine ⟨l.insert_key k', ?_, mem_insert_key_self l k'⟩
      rw [alookup_aupdate_self, h]
      rfl
    · rw [alookup_ainsert_ne _ _ hne] at hitem
      obtain ⟨l0, hl0, hk0⟩ := hc k' id' hitem
      rcases eq_or_ne id' idv with he2 | hne2
      · subst he2
        refine ⟨l0.insert_key k, ?_, mem_insert_key_of_mem l0 k hk0⟩
        rw [alookup_aupdate_self, hl0]
        rfl
      · refine ⟨l0, ?_, hk0⟩
        rw [alookup_aupdate_ne _ _ hne2]
        exact hl0

theorem itemMapInv_detach (c : LeaseCollection) (hc : ItemMapInv c) (idv : Int)
    (k : Key) : ItemMapInv (c.detach idv k).2 := by
  unfold LeaseCollection.detach
  cases h : alookup c.lease_map idv with
  | none => exact hc
  | some l =>
    intro k' id' hitem
    rcases eq_or_ne k' k with he | hne
    · subst he
      rw [alookup_aerase_self] at hitem
      exact Option.noConfusion hitem
    · rw [alookup_aerase_ne _ hne] at hitem
      obtain ⟨l0, hl0, hk0⟩ := hc k' id' hitem
      rcases eq_or_ne id' idv with he2 | hne2
      · subst he2
        refine ⟨l0.remove_key k, ?_, mem_remove_key hk0 hne⟩
        rw [alookup_aupdate_self, hl0]
        rfl
      · refine ⟨l0, ?_, hk0⟩
        rw [alookup_aupdate_ne _ _ hne2]
        exact hl0

theorem itemMapInv_promote (c : LeaseCollection) (hc : ItemMapInv c) (now extend : Nat) :
    ItemMapInv (c.promote now extend) := by
  intro k id hitem
  obtain ⟨l0, hl0, hk0⟩ := hc k id hitem
  refine ⟨(l0.refresh now extend).1, ?_, hk0⟩
  exact (alookup_mapValues (fun l => (l.refresh now extend).1) c.lease_map id).trans
    (by rw [hl0])

theorem itemMapInv_demote (c : LeaseCollection) (hc : ItemMapInv c) :
    ItemMapInv c.demote := by
  intro k id hitem
  obtain ⟨l0, hl0, hk0⟩ := hc k id hitem
  refine ⟨l0.forever, ?_, hk0⟩
  exact (alookup_mapValues Lease.forever c.lease_map id).trans (by rw [hl0]; rfl)

/-- Claim C1 counterexample: after granting lease 1, attaching key [107] to
it and revoking it, `item_map` still binds the key to lease 1 while
`lease_map` no longer contains it, so the claimed invariant — every key in
`item_map` points into `lease_map` — is false after `revoke`. -/
theorem revoke_breaks_item_map_inv :
    alookup revokedState.item_map [107] = some 1
    ∧ alookup revokedState.lease_map 1 = none
    ∧ ¬ ItemMapInv revokedState := by
  refine ⟨by decide, by decide, fun h => ?_⟩
  obtain ⟨l, hl, -⟩ := h [107] 1 (by decide)
  rw [show alookup revokedState.lease_map 1 = none from by decide] at hl
  exact Option.noConfusion hl

/-- Claim C1 (amended): the item-map invariant is preserved by `grant` of a
fresh id, `renew`, `attach`, `detach`, `promote` and `demote` — every
`LeaseCollection` operation except `revoke`, which removes the lease from
`lease_map` while leaving `item_map` untouched and thereby violates the
invariant whenever the revoked lease had attached keys (see
`revoke_breaks_item_map_inv`; in the full system the keys are pruned from
`item_map` only later, by kv-level detach). -/
theorem item_map_inv_preserved_except_revoke (c : LeaseCollection) (hc : ItemMapInv c) :
    (∀ now idv t lead, alookup c.lease_map idv = none →
        ItemMapInv (c.grant now idv t lead))
    ∧ (∀ now idv, ItemMapInv (c.renew now idv).2)
    ∧ (∀ idv k, ItemMapInv (c.attach idv k).2)
    ∧ (∀ idv k, ItemMapInv (c.detach idv k).2)
    ∧ (∀ now extend, ItemMapInv (c.promote now extend))
    ∧ ItemMapInv c.demote :=
  ⟨fun now idv t lead hfresh => itemMapInv_grant c hc now idv t lead hfresh,
   fun now idv => itemMapInv_renew c hc now idv,
   fun idv k => itemMapInv_attach c hc idv k,
   fun idv k => itemMapInv_detach c hc idv k,
   fun now extend => itemMapInv_promote c hc now extend,
   itemMapInv_demote c hc⟩

/-- Claim C1 witness: the invariant holds of the concrete state with key
[107] attached to lease 1, and is preserved by detaching that key. -/
theorem item_map_inv_preserved_except_revoke_witness :
    ItemMapInv (attachedState.detach 1 [107]).2 := by
  refine (item_map_inv_preserved_except_revoke attachedState ?_).2.2.2.1 1 [107]
  intro k id hitem
  have hitem' : alookup [(([107] : Key), (1 : Int))] k = some id := hitem
  simp only [alookup] at hitem'
  by_cases h : ([107] : Key) = k
  · subst h
    rw [if_pos rfl] at hitem'
    injection hitem' with hid
    subst hid
    exact ⟨{ id := 1, ttl := 5, expiry := none, keysList := [[107]] }, by decide, by decide⟩
  · rw [if_neg h] at hitem'
    exact Option.noConfusion hitem'

end Xline
